import Mathlib

/-!
Shallow embedding of the BananaTalk signaling backend (Go).

The embedding follows the latest backend version (the one with the
`MatchMaker` queue, per-client serialized writes and heartbeat), which is
the version the specification describes.  The Strategy-B pairing loop
`matchingLoop` from an earlier backend version is embedded as well, since
it is part of the repository and is cited for the match-notification
claims.

Modelling decisions:
- A Go `*Client` is a `Client` value; the `Conn` field stands for the
  underlying `*websocket.Conn` pointer, so two `Client`s with the same
  `ID` but different `Conn` model a reconnection of the same identity.
- `Payload` is `interface{}` in Go; the server only ever stores an
  identity string in it and otherwise forwards it untouched, so it is
  modelled as `String`.
- Writes to a connection are effects; a step function returns the list of
  write attempts `(target, message)` it performs, in program order, and
  the error-log lines it emits.  Whether a write succeeds is supplied by
  a `writeOk : Client → Bool` oracle, mirroring the `err := WriteJSON(...)`
  results.
- The `notify` channel of capacity one is a `Bool`: `true` means a wake
  token is buffered.
-/

/-- Wire message, from `type Message struct` (fields `Type`, `Payload`,
`To`, `From`). -/
structure Message where
  «Type» : String
  Payload : String
  To : String
  From : String
deriving DecidableEq, Repr

/-- Connected client, from `type Client struct`.  `Conn` models the
`*websocket.Conn` pointer identity, distinguishing client instances that
share an identity. -/
structure Client where
  ID : String
  Conn : Nat
deriving DecidableEq, Repr

/-! ## Client registry (`clients` map guarded by `clientsMu`) -/

/-- The `clients` map, modelled as an association list with at most one
entry per key (all mutations below preserve that). -/
abbrev Registry := List (String × Client)

/-- Map lookup `clients[id]`. -/
def regGet : Registry → String → Option Client
  | [], _ => none
  | (k, v) :: r, id => if k = id then some v else regGet r id

/-- Map deletion `delete(clients, id)`. -/
def regDelete : Registry → String → Registry
  | [], _ => []
  | (k, v) :: r, id => if k = id then regDelete r id else (k, v) :: regDelete r id

/-- Map insertion `clients[id] = c` (last write wins). -/
def regPut (r : Registry) (id : String) (c : Client) : Registry :=
  (id, c) :: regDelete r id

/-! ## Match maker -/

/-- `type MatchMaker struct`: the waiting queue plus the wake channel
(`notify`, capacity 1, `true` = token buffered). -/
structure MatchMaker where
  queue : List Client
  notify : Bool
deriving DecidableEq, Repr

/-- `NewMatchMaker()`: empty queue, empty wake channel. -/
def MatchMaker.new : MatchMaker := ⟨[], false⟩

/-- `(m *MatchMaker) Add(c)`: append to the queue tail, then non-blocking
send on `notify` (a no-op if a token is already buffered, hence simply
`true`). -/
def MatchMaker.Add (m : MatchMaker) (c : Client) : MatchMaker :=
  { queue := m.queue ++ [c], notify := true }

/-- The loop body of `(m *MatchMaker) Remove(c)`: scan from the front and
delete the first entry whose `ID` equals the given id, then return. -/
def removeFirstByID (id : String) : List Client → List Client
  | [] => []
  | x :: xs => if x.ID = id then xs else x :: removeFirstByID id xs

/-- `(m *MatchMaker) Remove(c)`: deletes the first queue entry with
`client.ID == c.ID`, if any; does not touch `notify`. -/
def MatchMaker.Remove (m : MatchMaker) (c : Client) : MatchMaker :=
  { m with queue := removeFirstByID c.ID m.queue }

/-- The `match` notification the match maker writes:
`Message{Type: "match", Payload: peerID}` (zero values for `To`/`From`). -/
def matchMsg (peerID : String) : Message := ⟨"match", peerID, "", ""⟩

/-- Result of one iteration of `(m *MatchMaker) Run()`. -/
structure RunIter where
  state : MatchMaker
  writes : List (Client × Message)
  errors : List String
deriving DecidableEq, Repr

/-- One iteration of `(m *MatchMaker) Run()`, entered by consuming the
buffered wake token: if fewer than two clients wait, `continue`;
otherwise pop the two oldest, attempt `c1.WriteJSON(match c2.ID)` and
then, unconditionally, `c2.WriteJSON(match c1.ID)`, log each failure,
and re-post a wake token iff at least two clients remain. -/
def MatchMaker.RunStep (m : MatchMaker) (writeOk : Client → Bool) : RunIter :=
  match m.queue with
  | c1 :: c2 :: rest =>
    { state := { queue := rest, notify := decide (2 ≤ rest.length) }
      writes := [(c1, matchMsg c2.ID), (c2, matchMsg c1.ID)]
      errors :=
        (if writeOk c1 then [] else ["Failed to send match to client 1"]) ++
        (if writeOk c2 then [] else ["Failed to send match to client 2"]) }
  | q => { state := { queue := q, notify := false }, writes := [], errors := [] }

/-! ## Message router (`handleMessage`) -/

/-- Effects of one `handleMessage` call: the serialized write attempts it
makes and the error lines it logs.  `handleMessage` returns nothing to
its caller, so nothing here flows back to the sending connection. -/
structure RouteOutcome where
  attempts : List (Client × Message)
  errors : List String
deriving DecidableEq, Repr

/-- `handleMessage(msg)`: empty `To` → return; unregistered `To` → no-op;
otherwise one serialized write of `msg` to the target, with a failure
only logged. -/
def handleMessage (reg : Registry) (writeOk : Client → Bool) (msg : Message) :
    RouteOutcome :=
  if msg.To = "" then ⟨[], []⟩
  else
    match regGet reg msg.To with
    | some target =>
      ⟨[(target, msg)], if writeOk target then [] else ["Failed to send message"]⟩
    | none => ⟨[], []⟩

/-- The read-loop body on one successfully decoded message
(`msg.From = clientID; handleMessage(msg)`): stamp the authenticated
sender identity and route.  Every decoded message takes this path; there
is no per-type dispatch in the read loop. -/
def readLoopProcess (clientID : String) (reg : Registry) (writeOk : Client → Bool)
    (msg : Message) : RouteOutcome :=
  handleMessage reg writeOk { msg with From := clientID }

/-! ## Connection teardown (the deferred cleanup in `handleConnections`) -/

/-- Shared server state: the `clients` registry and the match maker. -/
structure ServerState where
  clients : Registry
  mm : MatchMaker
deriving DecidableEq, Repr

/-- The deferred cleanup in `handleConnections`:
`delete(clients, clientID)` (unconditional) then `matchMaker.Remove(client)`. -/
def teardown (s : ServerState) (client : Client) : ServerState :=
  { clients := regDelete s.clients client.ID
    mm := s.mm.Remove client }

/-! ## Authentication (the pre-upgrade part of `handleConnections`) -/

/-- Token extraction: the `token` query parameter, falling back — only
when the query parameter is empty — to an `Authorization: Bearer ` header
(`"Bearer "` has 7 characters). -/
def extractToken (queryToken authHeader : String) : String :=
  if queryToken ≠ "" then queryToken
  else if authHeader.startsWith "Bearer " then authHeader.drop 7
  else ""

/-- Outcome of the pre-upgrade phase: either `http.Error(w, _, status)`
and return — no upgrade, no socket — or proceeding to the upgrade with
the authenticated identity. -/
inductive AuthOutcome
  | reject (status : Nat)
  | upgrade (identity : String)
deriving DecidableEq, Repr

/-- Steps 1–3 of `handleConnections`: extract the token (query parameter
first), reject 401 if missing; validate it (`idtoken.Validate`, modelled
by the oracle `validate` returning the payload subject), reject 401 on
failure; reject 401 if the subject is empty; otherwise upgrade with the
subject as the client identity. -/
def handleConnAuth (queryToken authHeader : String)
    (validate : String → Option String) : AuthOutcome :=
  let token := extractToken queryToken authHeader
  if token = "" then .reject 401
  else
    match validate token with
    | none => .reject 401
    | some subject =>
      if subject = "" then .reject 401 else .upgrade subject

/-! ## Heartbeat constants and the supervised read loop -/

/-- `pongWait = 60 * time.Second`, in seconds. -/
def pongWait : Nat := 60

/-- `writeWait = 10 * time.Second`, in seconds. -/
def writeWait : Nat := 10

/-- `pingPeriod = (pongWait * 9) / 10`. -/
def pingPeriod : Nat := pongWait * 9 / 10

/-- The pong handler `conn.SetPongHandler(...)`: on a pong received at
time `now`, the read deadline becomes `now + pongWait`. -/
def pongRefresh (now : Nat) : Nat := now + pongWait

/-- A timed event seen by a connection's read side: a pong frame (handled
by the pong handler) or a decoded data message. -/
inductive ReadEvent
  | pong (t : Nat)
  | msg (t : Nat) (m : Message)
deriving DecidableEq, Repr

/-- Whether a read event is a liveness acknowledgment. -/
def ReadEvent.isPong : ReadEvent → Bool
  | .pong _ => true
  | .msg _ _ => false

/-- The supervised read loop of `handleConnections` over a timed event
trace, with discrete time.  The read deadline starts as given (the code
sets it to `now + pongWait` before the loop) and is refreshed only by
pongs.  An event arriving after the deadline means `ReadJSON` has already
returned a timeout error, breaking the loop; a trace that ends means no
further frame ever arrives, so the next read times out as well.  Every
exit path runs the deferred cleanup (`teardown`).  Returns the final
server state and the router write attempts made along the way. -/
def supervise (s : ServerState) (client : Client) (writeOk : Client → Bool) :
    Nat → List ReadEvent → ServerState × List (Client × Message)
  | _, [] => (teardown s client, [])
  | deadline, .pong t :: rest =>
    if t ≤ deadline then supervise s client writeOk (pongRefresh t) rest
    else (teardown s client, [])
  | deadline, .msg t m :: rest =>
    if t ≤ deadline then
      let out := readLoopProcess client.ID s.clients writeOk m
      let (s2, ws) := supervise s client writeOk deadline rest
      (s2, out.attempts ++ ws)
    else (teardown s client, [])

/-! ## The Strategy-B pairing loop (`matchingLoop` / `isClientActive`
from the earlier channel-based backend version) -/

/-- `isClientActive(c)`: the registry's current entry for `c.ID` is this
exact client instance (`ok && activeClient == c`). -/
def isClientActive (reg : Registry) (c : Client) : Bool :=
  match regGet reg c.ID with
  | some active => decide (active = c)
  | none => false

/-- One iteration of `matchingLoop` after popping `client` from the
channel, given the current `pending` slot: skip inactive clients, fill an
empty pending slot, replace a stale pending client, discard a self-match,
otherwise write `match` to the pending client first — on failure the
second write is skipped and `client` becomes the new pending — then to
`client`, after which pending resets regardless of the second write's
outcome.  Returns the new pending slot and the write attempts. -/
def matchingLoopStep (reg : Registry) (writeOk : Client → Bool)
    (pending : Option Client) (client : Client) :
    Option Client × List (Client × Message) :=
  if ¬ isClientActive reg client then (pending, [])
  else
    match pending with
    | none => (some client, [])
    | some p =>
      if ¬ isClientActive reg p then (some client, [])
      else if p.ID = client.ID then (some p, [])
      else if ¬ writeOk p then (some client, [(p, matchMsg client.ID)])
      else (none, [(p, matchMsg client.ID), (client, matchMsg p.ID)])

/-! ## Derived notions used by the claims -/

/-- Number of queue slots occupied by a given identity. -/
def countID (id : String) (l : List Client) : Nat :=
  (l.filter (fun x => x.ID = id)).length

/-- The pool's identities are pairwise distinct (each client occupies at
most one slot, and no two slots share an identity). -/
def NodupIDs (l : List Client) : Prop :=
  (l.map Client.ID).Nodup

instance (l : List Client) : Decidable (NodupIDs l) :=
  inferInstanceAs (Decidable (l.map Client.ID).Nodup)

/-! ## Helper lemmas -/

theorem regGet_regDelete_self (r : Registry) (id : String) :
    regGet (regDelete r id) id = none := by
  induction r with
  | nil => rfl
  | cons p r ih =>
    obtain ⟨k, v⟩ := p
    by_cases h : k = id
    · simp [regDelete, h, ih]
    · simp [regDelete, regGet, h, ih]

theorem regGet_regDelete_ne (r : Registry) (id id2 : String) (h : id2 ≠ id) :
    regGet (regDelete r id) id2 = regGet r id2 := by
  induction r with
  | nil => rfl
  | cons p r ih =>
    obtain ⟨k, v⟩ := p
    by_cases hk : k = id
    · subst hk
      simp [regDelete, regGet, Ne.symm h, ih]
    · by_cases hk2 : k = id2
      · simp [regDelete, regGet, hk, hk2, h]
      · simp [regDelete, regGet, hk, hk2, ih]

theorem removeFirstByID_of_forall_ne (id : String) (l : List Client)
    (h : ∀ x ∈ l, x.ID ≠ id) : removeFirstByID id l = l := by
  induction l with
  | nil => rfl
  | cons x xs ih =>
    have hx := h x (List.mem_cons_self x xs)
    simp [removeFirstByID, hx, ih fun y hy => h y (List.mem_cons_of_mem x hy)]

theorem removeFirstByID_append (id : String) (l1 : List Client) (x : Client)
    (l2 : List Client) (h1 : ∀ y ∈ l1, y.ID ≠ id) (hx : x.ID = id) :
    removeFirstByID id (l1 ++ x :: l2) = l1 ++ l2 := by
  induction l1 with
  | nil => simp [removeFirstByID, hx]
  | cons y ys ih =>
    have hy := h1 y (List.mem_cons_self y ys)
    simp [removeFirstByID, hy, ih fun z hz => h1 z (List.mem_cons_of_mem y hz)]

theorem removeFirstByID_sublist (id : String) (l : List Client) :
    List.Sublist (removeFirstByID id l) l := by
  induction l with
  | nil => exact List.Sublist.refl _
  | cons x xs ih =>
    by_cases hx : x.ID = id
    · simp only [removeFirstByID, hx, if_pos]
      exact List.sublist_cons_self x xs
    · simp only [removeFirstByID, hx, if_neg, not_false_iff]
      exact ih.cons₂ x

theorem countID_cons (id : String) (x : Client) (xs : List Client) :
    countID id (x :: xs) = if x.ID = id then countID id xs + 1 else countID id xs := by
  by_cases hx : x.ID = id <;> simp [countID, List.filter, hx]

theorem countID_eq_zero_forall (id : String) (l : List Client)
    (h : countID id l = 0) : ∀ x ∈ l, x.ID ≠ id := by
  induction l with
  | nil => intro x hx; cases hx
  | cons y ys ih =>
    rw [countID_cons] at h
    intro x hx
    rcases List.mem_cons.mp hx with rfl | hmem
    · intro hid
      rw [if_pos hid] at h
      exact Nat.succ_ne_zero _ h
    · by_cases hy : y.ID = id
      · rw [if_pos hy] at h
        exact absurd h (Nat.succ_ne_zero _)
      · rw [if_neg hy] at h
        exact ih h x hmem

theorem countID_le_one_removeFirst (id : String) (l : List Client)
    (h : countID id l ≤ 1) : ∀ x ∈ removeFirstByID id l, x.ID ≠ id := by
  induction l with
  | nil => intro x hx; cases hx
  | cons y ys ih =>
    rw [countID_cons] at h
    by_cases hy : y.ID = id
    · rw [if_pos hy] at h
      have hzero : countID id ys = 0 := Nat.le_zero.mp (Nat.lt_succ_iff.mp (Nat.lt_of_lt_of_le (Nat.lt_succ_of_le (Nat.le_refl _)) h))
      simp only [removeFirstByID, hy, if_pos]
      exact countID_eq_zero_forall id ys hzero
    · rw [if_neg hy] at h
      simp only [removeFirstByID, hy, if_neg, not_false_iff]
      intro x hx
      rcases List.mem_cons.mp hx with rfl | hmem
      · exact hy
      · exact ih h x hmem

theorem nodupIDs_of_sublist {l1 l2 : List Client} (hs : List.Sublist l1 l2)
    (h : NodupIDs l2) : NodupIDs l1 :=
  List.Nodup.sublist (hs.map Client.ID) h

theorem nodupIDs_pair_head {c1 c2 : Client} {rest : List Client}
    (h : NodupIDs (c1 :: c2 :: rest)) : c1.ID ≠ c2.ID := by
  have := (List.nodup_cons.mp h).1
  intro he
  exact this (by rw [he]; exact List.mem_cons_self _ _)

theorem supervise_fst (s : ServerState) (c : Client) (w : Client → Bool) :
    ∀ (d : Nat) (evs : List ReadEvent), (supervise s c w d evs).1 = teardown s c := by
  intro d evs
  induction evs generalizing d with
  | nil => rfl
  | cons e rest ih =>
    cases e with
    | pong t =>
      simp only [supervise]
      split
      · exact ih _
      · rfl
    | msg t m =>
      simp only [supervise]
      split
      · exact ih d
      · rfl

/-! ## Claims -/

/-- C1 counterexample: `Add` appends unconditionally and `Run` pops the
two oldest entries with no identity check, so after adding the same
client twice the pool holds it in two slots and the pairing step emits a
self-match (both `match` writes go to identity "x"). -/
theorem C1_counterexample :
    countID "x" ((MatchMaker.new.Add ⟨"x", 1⟩).Add ⟨"x", 1⟩).queue = 2 ∧
    ((MatchMaker.new.Add ⟨"x", 1⟩).Add ⟨"x", 1⟩).queue = [⟨"x", 1⟩, ⟨"x", 1⟩] ∧
    (((MatchMaker.new.Add ⟨"x", 1⟩).Add ⟨"x", 1⟩).RunStep (fun _ => true)).writes.map
        (fun p => p.1.ID) = ["x", "x"] := by decide

/-- C1 (amended): the pool itself never deduplicates and the pairing step
never compares identities, so the invariant only holds conditionally:
when the pool's identities are pairwise distinct, `Add` of a fresh
identity, `Remove`, and the pairing step keep them distinct, and every
pairing the `Run` step emits is between two distinct identities. -/
theorem C1_pool_nodup_and_distinct_pairs (m : MatchMaker) (c : Client)
    (w : Client → Bool) (h : NodupIDs m.queue) :
    (c.ID ∉ m.queue.map Client.ID → NodupIDs (m.Add c).queue) ∧
    NodupIDs (m.Remove c).queue ∧
    NodupIDs ((m.RunStep w).state.queue) ∧
    (∀ c1 c2 rest, m.queue = c1 :: c2 :: rest →
      c1.ID ≠ c2.ID ∧
      (m.RunStep w).writes = [(c1, matchMsg c2.ID), (c2, matchMsg c1.ID)]) := by
  refine ⟨?_, ?_, ?_, ?_⟩
  · intro hnot
    simp only [MatchMaker.Add, NodupIDs, List.map_append, List.map_cons, List.map_nil]
    rw [List.nodup_append]
    refine ⟨h, List.nodup_singleton _, fun a ha hb => ?_⟩
    rw [List.mem_singleton] at hb
    exact hnot (hb ▸ ha)
  · exact nodupIDs_of_sublist (removeFirstByID_sublist c.ID m.queue) h
  · rcases hq : m.queue with _ | ⟨c1, _ | ⟨c2, rest⟩⟩
    · simp [MatchMaker.RunStep, hq, NodupIDs]
    · simp [MatchMaker.RunStep, hq, NodupIDs]
    · have hsub : List.Sublist rest (c1 :: c2 :: rest) :=
        (List.sublist_cons_self c2 rest).trans (List.sublist_cons_self c1 (c2 :: rest))
      rw [hq] at h
      simpa [MatchMaker.RunStep, hq] using nodupIDs_of_sublist hsub h
  · intro c1 c2 rest hq
    rw [hq] at h
    exact ⟨nodupIDs_pair_head h, by simp [MatchMaker.RunStep, hq]⟩

/-- C2: every message the router delivers carries `From` equal to the
authenticated identity of the sending connection (the client-supplied
`From` is overwritten in the read loop before routing), with `Type` and
`Payload` exactly as submitted, and the target is the registry's entry
for the message's `To`. -/
theorem C2_delivery_stamps_sender (clientID : String) (reg : Registry)
    (w : Client → Bool) (msg : Message) (target : Client) (delivered : Message)
    (h : (target, delivered) ∈ (readLoopProcess clientID reg w msg).attempts) :
    delivered.From = clientID ∧ delivered.«Type» = msg.«Type» ∧
      delivered.Payload = msg.Payload ∧ regGet reg msg.To = some target := by
  unfold readLoopProcess handleMessage at h
  split at h
  · simp at h
  · split at h
    next tgt heq =>
      simp only [List.mem_singleton, Prod.mk.injEq] at h
      obtain ⟨rfl, rfl⟩ := h
      exact ⟨rfl, rfl, rfl, heq⟩
    next heq => simp at h

/-- C3 counterexample: the registry's current entry for identity "x" is
the newer client `⟨"x", 2⟩`, not the stale client `⟨"x", 1⟩` being torn
down, yet teardown of the stale client deletes the entry — the cleanup
does an unconditional `delete(clients, clientID)` with no
remove-if-current check. -/
theorem C3_counterexample :
    regGet (regPut (regPut [] "x" ⟨"x", 1⟩) "x" ⟨"x", 2⟩) "x" = some ⟨"x", 2⟩ ∧
    (⟨"x", 2⟩ : Client) ≠ ⟨"x", 1⟩ ∧
    regGet (teardown ⟨regPut (regPut [] "x" ⟨"x", 1⟩) "x" ⟨"x", 2⟩, MatchMaker.new⟩
        ⟨"x", 1⟩).clients "x" = none := by decide

/-- C3 (amended): teardown unconditionally deletes the registry entry for
the client's identity — even when a newer reconnection's client
currently occupies it — leaving every other identity's entry untouched,
and removes the oldest pool entry with that identity (so when the
identity held at most one slot it no longer waits, and nothing is ever
added to the pool by teardown). -/
theorem C3_teardown_amended (s : ServerState) (c : Client) :
    regGet (teardown s c).clients c.ID = none ∧
    (∀ id, id ≠ c.ID → regGet (teardown s c).clients id = regGet s.clients id) ∧
    (countID c.ID s.mm.queue ≤ 1 → ∀ x ∈ (teardown s c).mm.queue, x.ID ≠ c.ID) ∧
    (∀ x ∈ (teardown s c).mm.queue, x ∈ s.mm.queue) := by
  refine ⟨regGet_regDelete_self _ _, fun id hid => regGet_regDelete_ne _ _ _ hid,
    ?_, ?_⟩
  · intro hc x hx
    exact countID_le_one_removeFirst c.ID s.mm.queue hc x hx
  · intro x hx
    exact (removeFirstByID_sublist c.ID s.mm.queue).subset hx

/-- C4 counterexample: a successfully decoded `bye` message with a
registered destination is stamped and handed to the router, which
delivers it — the read loop has no `bye` special case, so `bye` is
forwarded like any other type, contradicting the claim that it is never
forwarded. -/
theorem C4_counterexample :
    readLoopProcess "a" (regPut [] "b" ⟨"b", 2⟩) (fun _ => true)
        ⟨"bye", "", "b", "spoofed"⟩ =
      ⟨[(⟨"b", 2⟩, ⟨"bye", "", "b", "a"⟩)], []⟩ := by decide

/-- C4 (amended): the read loop hands every successfully decoded message
to the router unconditionally — there is no dispatch on `Type`, so a
`bye` with a registered destination is forwarded exactly like any other
type, and changing only a message's `Type` never changes the forwarding
decision. -/
theorem C4_forwarding_type_blind (clientID : String) (reg : Registry)
    (w : Client → Bool) (msg : Message) (target : Client)
    (hto : msg.To ≠ "") (hreg : regGet reg msg.To = some target) :
    (readLoopProcess clientID reg w msg).attempts
      = [(target, { msg with From := clientID })] ∧
    (∀ ty : String, (readLoopProcess clientID reg w { msg with «Type» := ty }).attempts
      = [(target, { msg with «Type» := ty, From := clientID })]) := by
  constructor
  · simp [readLoopProcess, handleMessage, hto, hreg]
  · intro ty
    simp [readLoopProcess, handleMessage, hto, hreg]

/-- C5: adding two distinct clients to an empty pool and running one
pairing iteration emits exactly the one pair of `match` notifications —
the first client gets the second's identity as payload and vice versa —
after which the pool is empty, no wake token is re-posted, and a further
iteration emits nothing. -/
theorem C5_two_clients_single_pair (c1 c2 : Client) (w : Client → Bool)
    (_h : c1 ≠ c2) :
    (((MatchMaker.new.Add c1).Add c2).RunStep w).writes
      = [(c1, matchMsg c2.ID), (c2, matchMsg c1.ID)] ∧
    (((MatchMaker.new.Add c1).Add c2).RunStep w).state.queue = [] ∧
    (((MatchMaker.new.Add c1).Add c2).RunStep w).state.notify = false ∧
    ((((MatchMaker.new.Add c1).Add c2).RunStep w).state.RunStep w).writes = [] :=
  ⟨rfl, rfl, rfl, rfl⟩

/-- C6 counterexample: in the channel-based `matchingLoop`, with both
clients registered and current and distinct identities, a failing write
to the pending client skips the write to the second client entirely —
only one `match` write is attempted and the second client becomes the new
pending — contradicting the claim that a failure of the first write never
skips the second. -/
theorem C6_counterexample :
    isClientActive (regPut (regPut [] "a" ⟨"a", 1⟩) "b" ⟨"b", 2⟩) ⟨"a", 1⟩ = true ∧
    isClientActive (regPut (regPut [] "a" ⟨"a", 1⟩) "b" ⟨"b", 2⟩) ⟨"b", 2⟩ = true ∧
    matchingLoopStep (regPut (regPut [] "a" ⟨"a", 1⟩) "b" ⟨"b", 2⟩)
        (fun x => x.ID != "a") (some ⟨"a", 1⟩) ⟨"b", 2⟩
      = (some ⟨"b", 2⟩, [(⟨"a", 1⟩, matchMsg "b")]) := by decide

/-- C6 (amended): in `MatchMaker.Run` the two `match` notifications are
attempted unconditionally — both the write list and the resulting pool
state are independent of either write's outcome; in the channel-based
`matchingLoop`, when the write to the pending client succeeds both writes
are attempted regardless of the second write's outcome, but when the
write to the pending client fails, the second write is skipped and the
popped client is retained as the new pending client. -/
theorem C6_notifications_amended (m : MatchMaker) (w w2 : Client → Bool)
    (reg : Registry) (p c : Client) :
    ((m.RunStep w).writes = (m.RunStep w2).writes ∧
      (m.RunStep w).state = (m.RunStep w2).state) ∧
    (∀ c1 c2 rest, m.queue = c1 :: c2 :: rest →
      (m.RunStep w).writes = [(c1, matchMsg c2.ID), (c2, matchMsg c1.ID)]) ∧
    (isClientActive reg c = true → isClientActive reg p = true → p.ID ≠ c.ID →
      (w p = true →
        (matchingLoopStep reg w (some p) c).2
          = [(p, matchMsg c.ID), (c, matchMsg p.ID)]) ∧
      (w p = false →
        (matchingLoopStep reg w (some p) c).2 = [(p, matchMsg c.ID)] ∧
        (matchingLoopStep reg w (some p) c).1 = some c)) := by
  refine ⟨?_, ?_, ?_⟩
  · rcases hq : m.queue with _ | ⟨c1, _ | ⟨c2, rest⟩⟩ <;> simp [MatchMaker.RunStep, hq]
  · intro c1 c2 rest hq
    simp [MatchMaker.RunStep, hq]
  · intro hc hp hne
    constructor
    · intro hw
      simp [matchingLoopStep, hc, hp, hne, hw]
    · intro hw
      simp [matchingLoopStep, hc, hp, hne, hw]

/-- C7: routing is a silent no-op when `To` is empty or names an
unregistered identity (no write attempt, no log, nothing surfaced to the
sender), and when the destination is registered the single forward write
is attempted with a failure only producing a log line (and a success
producing none) — the outcome carries nothing back to the sender either
way. -/
theorem C7_route_silent (reg : Registry) (w : Client → Bool) (msg : Message) :
    ((msg.To = "" ∨ regGet reg msg.To = none) → handleMessage reg w msg = ⟨[], []⟩) ∧
    (∀ target, regGet reg msg.To = some target → msg.To ≠ "" →
      (handleMessage reg w msg).attempts = [(target, msg)] ∧
      (w target = false →
        (handleMessage reg w msg).errors = ["Failed to send message"]) ∧
      (w target = true → (handleMessage reg w msg).errors = [])) := by
  constructor
  · rintro (h | h)
    · simp [handleMessage, h]
    · by_cases hto : msg.To = "" <;> simp [handleMessage, hto, h]
  · intro target hreg hto
    refine ⟨by simp [handleMessage, hto, hreg], fun hw => ?_, fun hw => ?_⟩ <;>
      simp [handleMessage, hto, hreg, hw]

/-- C8: the pre-upgrade phase rejects with HTTP 401 — never reaching the
upgrade — whenever the bearer token is missing from both the query
parameter and the Authorization header, fails validation, or validates
with an empty subject; and when the query parameter is non-empty it takes
precedence, making the outcome independent of the Authorization header. -/
theorem C8_auth_reject_and_precedence (queryToken authHeader : String)
    (validate : String → Option String) :
    ((extractToken queryToken authHeader = "" ∨
      validate (extractToken queryToken authHeader) = none ∨
      validate (extractToken queryToken authHeader) = some "") →
      handleConnAuth queryToken authHeader validate = .reject 401) ∧
    (queryToken ≠ "" → ∀ authHeader2,
      handleConnAuth queryToken authHeader validate
        = handleConnAuth queryToken authHeader2 validate) := by
  constructor
  · rintro (h | h | h)
    · simp [handleConnAuth, h]
    · by_cases he : extractToken queryToken authHeader = "" <;>
        simp [handleConnAuth, he, h]
    · by_cases he : extractToken queryToken authHeader = "" <;>
        simp [handleConnAuth, he, h]
  · intro hq ah2
    have h1 : extractToken queryToken authHeader = queryToken := by
      simp [extractToken, hq]
    have h2 : extractToken queryToken ah2 = queryToken := by
      simp [extractToken, hq]
    simp only [handleConnAuth, h1, h2]

/-- C9: the ping period is strictly shorter than the pong timeout; a pong
arriving within the read deadline refreshes the deadline to its arrival
time plus `pongWait`; and a supervised connection whose trace contains no
pong ends with the read loop exiting and the deferred cleanup removing
the client's identity from the registry and its entry from the waiting
pool (completely, when it occupied at most one slot). -/
theorem C9_heartbeat_teardown (s : ServerState) (c : Client) (w : Client → Bool)
    (deadline : Nat) (events : List ReadEvent) :
    pingPeriod < pongWait ∧
    (∀ t rest, t ≤ deadline →
      supervise s c w deadline (ReadEvent.pong t :: rest)
        = supervise s c w (t + pongWait) rest) ∧
    ((∀ e ∈ events, e.isPong = false) →
      regGet (supervise s c w deadline events).1.clients c.ID = none ∧
      (countID c.ID s.mm.queue ≤ 1 →
        ∀ x ∈ (supervise s c w deadline events).1.mm.queue, x.ID ≠ c.ID)) := by
  refine ⟨by decide, ?_, ?_⟩
  · intro t rest ht
    simp [supervise, ht, pongRefresh]
  · intro _
    rw [supervise_fst s c w deadline events]
    exact ⟨regGet_regDelete_self _ _,
      fun hc x hx => countID_le_one_removeFirst c.ID s.mm.queue hc x hx⟩

/-- C10: `Remove` deletes exactly the oldest pool entry whose identity
matches the given client's — the entries before it and after it survive
in their original relative order — and leaves the pool unchanged when no
entry matches. -/
theorem C10_remove_first_only (m : MatchMaker) (c : Client) :
    ((∀ x ∈ m.queue, x.ID ≠ c.ID) → (m.Remove c).queue = m.queue) ∧
    (∀ l1 x l2, m.queue = l1 ++ x :: l2 → (∀ y ∈ l1, y.ID ≠ c.ID) → x.ID = c.ID →
      (m.Remove c).queue = l1 ++ l2) := by
  constructor
  · intro h
    simp [MatchMaker.Remove, removeFirstByID_of_forall_ne c.ID m.queue h]
  · intro l1 x l2 hq h1 hx
    simp [MatchMaker.Remove, hq, removeFirstByID_append c.ID l1 x l2 h1 hx]

/-! ## Witnesses -/

/-- C1 witness: the amended pool invariants evaluated on a concrete
two-client pool plus a fresh third identity. -/
theorem C1_witness :
    NodupIDs ((⟨[⟨"a", 1⟩, ⟨"b", 2⟩], true⟩ : MatchMaker).Add ⟨"c", 3⟩).queue ∧
    ((⟨[⟨"a", 1⟩, ⟨"b", 2⟩], true⟩ : MatchMaker).RunStep (fun _ => true)).writes
      = [(⟨"a", 1⟩, matchMsg "b"), (⟨"b", 2⟩, matchMsg "a")] := by
  have h := C1_pool_nodup_and_distinct_pairs ⟨[⟨"a", 1⟩, ⟨"b", 2⟩], true⟩ ⟨"c", 3⟩
    (fun _ => true) (by decide)
  exact ⟨h.1 (by decide), (h.2.2.2 ⟨"a", 1⟩ ⟨"b", 2⟩ [] rfl).2⟩

/-- C2 witness: a concrete `offer` from sender "a" with a spoofed `From`
is delivered to registered destination "b" with `From` overwritten to
"a" and `Type`/`Payload` preserved. -/
theorem C2_witness :
    (⟨"offer", "sdp", "b", "a"⟩ : Message).From = "a" ∧
    (⟨"offer", "sdp", "b", "a"⟩ : Message).«Type»
      = (⟨"offer", "sdp", "b", "zz"⟩ : Message).«Type» ∧
    (⟨"offer", "sdp", "b", "a"⟩ : Message).Payload
      = (⟨"offer", "sdp", "b", "zz"⟩ : Message).Payload ∧
    regGet (regPut [] "b" ⟨"b", 2⟩) (⟨"offer", "sdp", "b", "zz"⟩ : Message).To
      = some ⟨"b", 2⟩ :=
  C2_delivery_stamps_sender "a" (regPut [] "b" ⟨"b", 2⟩) (fun _ => true)
    ⟨"offer", "sdp", "b", "zz"⟩ ⟨"b", 2⟩ ⟨"offer", "sdp", "b", "a"⟩ (by decide)

/-- C3 witness: the amended teardown behaviour on a concrete state with
two registered identities and a two-client pool. -/
theorem C3_witness :
    regGet (teardown ⟨[("x", ⟨"x", 1⟩), ("y", ⟨"y", 2⟩)],
        ⟨[⟨"x", 1⟩, ⟨"y", 2⟩], true⟩⟩ ⟨"x", 1⟩).clients "x" = none ∧
    regGet (teardown ⟨[("x", ⟨"x", 1⟩), ("y", ⟨"y", 2⟩)],
        ⟨[⟨"x", 1⟩, ⟨"y", 2⟩], true⟩⟩ ⟨"x", 1⟩).clients "y"
      = regGet [("x", ⟨"x", 1⟩), ("y", ⟨"y", 2⟩)] "y" ∧
    (⟨"y", 2⟩ : Client).ID ≠ (⟨"x", 1⟩ : Client).ID ∧
    (⟨"y", 2⟩ : Client) ∈ [⟨"x", 1⟩, ⟨"y", 2⟩] := by
  have h := C3_teardown_amended
    ⟨[("x", ⟨"x", 1⟩), ("y", ⟨"y", 2⟩)], ⟨[⟨"x", 1⟩, ⟨"y", 2⟩], true⟩⟩ ⟨"x", 1⟩
  exact ⟨h.1, h.2.1 "y" (by decide), h.2.2.1 (by decide) ⟨"y", 2⟩ (by decide),
    h.2.2.2 ⟨"y", 2⟩ (by decide)⟩

/-- C4 witness: type-blind forwarding at a concrete registry — an `offer`
and then a `bye` to registered destination "b" are both delivered,
stamped with sender "a". -/
theorem C4_witness :
    (readLoopProcess "a" (regPut [] "b" ⟨"b", 2⟩) (fun _ => true)
        ⟨"offer", "p", "b", "zz"⟩).attempts
      = [(⟨"b", 2⟩, ⟨"offer", "p", "b", "a"⟩)] ∧
    (readLoopProcess "a" (regPut [] "b" ⟨"b", 2⟩) (fun _ => true)
        ⟨"bye", "p", "b", "zz"⟩).attempts
      = [(⟨"b", 2⟩, ⟨"bye", "p", "b", "a"⟩)] := by
  have h := C4_forwarding_type_blind "a" (regPut [] "b" ⟨"b", 2⟩) (fun _ => true)
    ⟨"offer", "p", "b", "zz"⟩ ⟨"b", 2⟩ (by decide) (by decide)
  exact ⟨h.1, h.2 "bye"⟩

/-- C5 witness: the single-pair pairing run on two concrete distinct
clients. -/
theorem C5_witness :
    (((MatchMaker.new.Add ⟨"a", 1⟩).Add ⟨"b", 2⟩).RunStep (fun _ => true)).writes
      = [(⟨"a", 1⟩, matchMsg "b"), (⟨"b", 2⟩, matchMsg "a")] ∧
    (((MatchMaker.new.Add ⟨"a", 1⟩).Add ⟨"b", 2⟩).RunStep
        (fun _ => true)).state.queue = [] ∧
    (((MatchMaker.new.Add ⟨"a", 1⟩).Add ⟨"b", 2⟩).RunStep
        (fun _ => true)).state.notify = false ∧
    ((((MatchMaker.new.Add ⟨"a", 1⟩).Add ⟨"b", 2⟩).RunStep
        (fun _ => true)).state.RunStep (fun _ => true)).writes = [] :=
  C5_two_clients_single_pair ⟨"a", 1⟩ ⟨"b", 2⟩ (fun _ => true) (by decide)

/-- C6 witness: the amended notification behaviour on concrete clients —
`RunStep` writes are oblivious to write outcomes, and `matchingLoopStep`
attempts both writes when the pending-side write succeeds. -/
theorem C6_witness :
    ((⟨[⟨"a", 1⟩, ⟨"b", 2⟩], true⟩ : MatchMaker).RunStep (fun _ => true)).writes
      = ((⟨[⟨"a", 1⟩, ⟨"b", 2⟩], true⟩ : MatchMaker).RunStep (fun _ => false)).writes ∧
    ((⟨[⟨"a", 1⟩, ⟨"b", 2⟩], true⟩ : MatchMaker).RunStep (fun _ => true)).writes
      = [(⟨"a", 1⟩, matchMsg "b"), (⟨"b", 2⟩, matchMsg "a")] ∧
    (matchingLoopStep (regPut (regPut [] "a" ⟨"a", 1⟩) "b" ⟨"b", 2⟩)
        (fun _ => true) (some ⟨"a", 1⟩) ⟨"b", 2⟩).2
      = [(⟨"a", 1⟩, matchMsg "b"), (⟨"b", 2⟩, matchMsg "a")] := by
  have h := C6_notifications_amended (⟨[⟨"a", 1⟩, ⟨"b", 2⟩], true⟩ : MatchMaker)
    (fun _ => true) (fun _ => false)
    (regPut (regPut [] "a" ⟨"a", 1⟩) "b" ⟨"b", 2⟩) ⟨"a", 1⟩ ⟨"b", 2⟩
  exact ⟨h.1.1, h.2.1 ⟨"a", 1⟩ ⟨"b", 2⟩ [] rfl,
    (h.2.2 (by decide) (by decide) (by decide)).1 rfl⟩

/-- C7 witness: routing evaluated concretely — an unroutable message is a
complete no-op and a failed forward to a registered destination leaves
exactly the one attempt and one log line. -/
theorem C7_witness :
    handleMessage [("b", ⟨"b", 2⟩)] (fun _ => false) ⟨"offer", "p", "", "a"⟩
      = ⟨[], []⟩ ∧
    (handleMessage [("b", ⟨"b", 2⟩)] (fun _ => false)
        ⟨"offer", "p", "b", "a"⟩).attempts
      = [(⟨"b", 2⟩, ⟨"offer", "p", "b", "a"⟩)] ∧
    (handleMessage [("b", ⟨"b", 2⟩)] (fun _ => false)
        ⟨"offer", "p", "b", "a"⟩).errors = ["Failed to send message"] := by
  have h1 := (C7_route_silent [("b", ⟨"b", 2⟩)] (fun _ => false)
    ⟨"offer", "p", "", "a"⟩).1 (Or.inl rfl)
  have h2 := (C7_route_silent [("b", ⟨"b", 2⟩)] (fun _ => false)
    ⟨"offer", "p", "b", "a"⟩).2 ⟨"b", 2⟩ (by decide) (by decide)
  exact ⟨h1, h2.1, h2.2.1 rfl⟩

/-- C8 witness: concrete rejections (no token anywhere; validation
failure) and query-parameter precedence over two different headers. -/
theorem C8_witness :
    handleConnAuth "" "" (fun _ => some "sub") = .reject 401 ∧
    handleConnAuth "tk" "" (fun _ => none) = .reject 401 ∧
    handleConnAuth "tk" "Bearer other" (fun _ => some "sub")
      = handleConnAuth "tk" "junk" (fun _ => some "sub") := by
  exact ⟨(C8_auth_reject_and_precedence "" "" (fun _ => some "sub")).1
      (Or.inl (by decide)),
    (C8_auth_reject_and_precedence "tk" "" (fun _ => none)).1
      (Or.inr (Or.inl rfl)),
    (C8_auth_reject_and_precedence "tk" "Bearer other" (fun _ => some "sub")).2
      (by decide) "junk"⟩

/-- C9 witness: the heartbeat facts at a concrete connection — a timely
pong refreshes the deadline, and a pong-free trace ends with identity "x"
gone from the registry and its slot removed from the pool. -/
theorem C9_witness :
    pingPeriod < pongWait ∧
    supervise ⟨[("x", ⟨"x", 1⟩)], ⟨[⟨"x", 1⟩, ⟨"y", 2⟩], true⟩⟩ ⟨"x", 1⟩
        (fun _ => true) 60 [ReadEvent.pong 30]
      = supervise ⟨[("x", ⟨"x", 1⟩)], ⟨[⟨"x", 1⟩, ⟨"y", 2⟩], true⟩⟩ ⟨"x", 1⟩
        (fun _ => true) (30 + pongWait) [] ∧
    regGet (supervise ⟨[("x", ⟨"x", 1⟩)], ⟨[⟨"x", 1⟩, ⟨"y", 2⟩], true⟩⟩ ⟨"x", 1⟩
        (fun _ => true) 60 [ReadEvent.msg 10 (matchMsg "q")]).1.clients "x" = none ∧
    (⟨"y", 2⟩ : Client).ID ≠ (⟨"x", 1⟩ : Client).ID := by
  have h := C9_heartbeat_teardown ⟨[("x", ⟨"x", 1⟩)], ⟨[⟨"x", 1⟩, ⟨"y", 2⟩], true⟩⟩
    ⟨"x", 1⟩ (fun _ => true) 60 [ReadEvent.msg 10 (matchMsg "q")]
  have h2 := h.2.2 (by decide)
  exact ⟨h.1, h.2.1 30 [] (by decide), h2.1, h2.2 (by decide) ⟨"y", 2⟩ (by decide)⟩

/-- C10 witness: `Remove` on a concrete pool — no matching identity
leaves the pool unchanged; with two "x" entries only the oldest is
deleted and the later one survives in place. -/
theorem C10_witness :
    ((⟨[⟨"a", 1⟩, ⟨"b", 2⟩], true⟩ : MatchMaker).Remove ⟨"z", 9⟩).queue
      = [⟨"a", 1⟩, ⟨"b", 2⟩] ∧
    ((⟨[⟨"a", 1⟩, ⟨"x", 2⟩, ⟨"b", 3⟩, ⟨"x", 4⟩], true⟩ : MatchMaker).Remove
        ⟨"x", 7⟩).queue
      = [⟨"a", 1⟩] ++ [⟨"b", 3⟩, ⟨"x", 4⟩] := by
  exact ⟨(C10_remove_first_only ⟨[⟨"a", 1⟩, ⟨"b", 2⟩], true⟩ ⟨"z", 9⟩).1 (by decide),
    (C10_remove_first_only ⟨[⟨"a", 1⟩, ⟨"x", 2⟩, ⟨"b", 3⟩, ⟨"x", 4⟩], true⟩
      ⟨"x", 7⟩).2 [⟨"a", 1⟩] ⟨"x", 2⟩ [⟨"b", 3⟩, ⟨"x", 4⟩] rfl (by decide) rfl⟩
